import Mathlib

/-!
Verification of the ai_cost_guard analytical core: a shallow embedding of the
baseline engine, anomaly detector, guardrail enforcer, pricing and simulation
harness, with theorems settling the frozen specification claims.

Numbers are modelled exactly: monetary amounts and thresholds as rationals,
timestamps as integers (seconds), token counts as integers.  Fallible Python
code (raising ValueError / GuardrailViolation) is modelled with Except.
-/

attribute [local semireducible] Rat.add Rat.mul Rat.sub Rat.inv

instance {ε α : Type} [DecidableEq ε] [DecidableEq α] : DecidableEq (Except ε α) := fun a b =>
  match a, b with
  | .error e₁, .error e₂ =>
    if h : e₁ = e₂ then .isTrue (by rw [h]) else .isFalse (by intro hc; cases hc; exact h rfl)
  | .ok v₁, .ok v₂ =>
    if h : v₁ = v₂ then .isTrue (by rw [h]) else .isFalse (by intro hc; cases hc; exact h rfl)
  | .error _, .ok _ => .isFalse (by intro hc; cases hc)
  | .ok _, .error _ => .isFalse (by intro hc; cases hc)

namespace AICostGuard

/-- Embedding of `storage/models.py` `LLMUsageEvent`.  `estimated_cost` is
optional because `compute_baseline` and `detect_anomalies` explicitly test it
against `None`; the other numeric fields are declared as plain ints in the
dataclass and NOT NULL in the ledger schema. -/
structure LLMUsageEvent where
  timestamp : ℤ
  feature : String
  model : String
  prompt_tokens : ℤ
  completion_tokens : ℤ
  total_tokens : ℤ
  estimated_cost : Option ℚ
  retry_count : ℤ
  request_id : Option String
  deriving DecidableEq

def defaultEvent : LLMUsageEvent :=
  ⟨0, "", "", 0, 0, 0, none, 0, none⟩

/-- Python `int(x)` on a rational: truncation toward zero. -/
def ratTrunc (q : ℚ) : ℤ := q.num.tdiv (q.den : ℤ)

/-- `sorted(values)` for rational values (ascending). -/
def sortAscQ (l : List ℚ) : List ℚ := l.insertionSort (· ≤ ·)

/-- `position = (percentile / 100.0) * (n - 1)` from `_compute_exact_percentile`. -/
def percentilePosition (n : ℕ) (p : ℤ) : ℚ := ((p : ℚ) / 100) * ((n : ℚ) - 1)

/-- `lower_index = int(position)` of `_compute_exact_percentile`. -/
def lowerIndexOf (values : List ℚ) (p : ℤ) : ℕ :=
  (ratTrunc (percentilePosition (sortAscQ values).length p)).toNat

/-- `upper_index = min(lower_index + 1, n - 1)` of `_compute_exact_percentile`. -/
def upperIndexOf (values : List ℚ) (p : ℤ) : ℕ :=
  min (lowerIndexOf values p + 1) ((sortAscQ values).length - 1)

/-- The interpolated value returned by `_compute_exact_percentile` on valid
input: `lower_value + fraction * (upper_value - lower_value)`. -/
def percentileValue (values : List ℚ) (p : ℤ) : ℚ :=
  let sorted_values := sortAscQ values
  let position := percentilePosition sorted_values.length p
  let fraction := position - (lowerIndexOf values p : ℚ)
  let lower_value := sorted_values.getD (lowerIndexOf values p) 0
  let upper_value := sorted_values.getD (upperIndexOf values p) 0
  lower_value + fraction * (upper_value - lower_value)

/-- Embedding of `baseline.py` `_compute_exact_percentile`. -/
def computeExactPercentile (values : List ℚ) (percentile : ℤ) : Except String ℚ :=
  if values.isEmpty then .error "Values list cannot be empty"
  else if percentile < 0 ∨ 100 < percentile then .error "Percentile must be between 0 and 100"
  else .ok (percentileValue values percentile)

inductive BaselineState where
  | COLD
  | WARM
  deriving DecidableEq

structure BaselineMetrics where
  median_cost : ℚ
  p90_cost : ℚ
  median_tokens : ℤ
  sample_count : ℕ
  deriving DecidableEq

/-- `BaselineMetrics.__post_init__` validation; the `sample_count` check is
vacuous here because the count is a list length. -/
def mkBaselineMetrics (median_cost p90_cost : ℚ) (median_tokens : ℤ)
    (sample_count : ℕ) : Except String BaselineMetrics :=
  if median_cost < 0 then .error "median_cost cannot be negative"
  else if p90_cost < 0 then .error "p90_cost cannot be negative"
  else if median_tokens < 0 then .error "median_tokens cannot be negative"
  else if (sample_count : ℤ) < 0 then .error "sample_count cannot be negative"
  else .ok ⟨median_cost, p90_cost, median_tokens, sample_count⟩

/-- `metrics` is optional because the simulation harness builds a COLD
`BaselineResult` with `metrics=None`. -/
structure BaselineResult where
  metrics : Option BaselineMetrics
  state : BaselineState
  window_start : ℤ
  window_end : ℤ
  deriving DecidableEq

/-- `BaselineResult.__post_init__` validation. -/
def mkBaselineResult (metrics : Option BaselineMetrics) (state : BaselineState)
    (window_start window_end : ℤ) : Except String BaselineResult :=
  if window_end < window_start then .error "window_start must be before window_end"
  else .ok ⟨metrics, state, window_start, window_end⟩

/-- Descending-timestamp order used by `sorted(events, key=timestamp, reverse=True)`. -/
def tsDesc (a b : LLMUsageEvent) : Prop := b.timestamp ≤ a.timestamp

instance : DecidableRel tsDesc :=
  fun a b => inferInstanceAs (Decidable (b.timestamp ≤ a.timestamp))

instance : IsTotal LLMUsageEvent tsDesc :=
  ⟨fun a b => le_total b.timestamp a.timestamp⟩

instance : IsTrans LLMUsageEvent tsDesc :=
  ⟨fun _ _ _ h₁ h₂ => le_trans h₂ h₁⟩

def sortEventsDesc (events : List LLMUsageEvent) : List LLMUsageEvent :=
  events.insertionSort tsDesc

def sevenDays : ℤ := 7 * 24 * 60 * 60

/-- The filtering loop of `compute_baseline`: walk the (newest-first) list,
stop at the first event older than the cutoff, cap the sample at `cap` events. -/
def windowTake (cutoff : ℤ) : ℕ → List LLMUsageEvent → List LLMUsageEvent
  | _, [] => []
  | 0, _ => []
  | cap + 1, e :: rest =>
      if e.timestamp < cutoff then [] else e :: windowTake cutoff cap rest

/-- The filtered sample of `compute_baseline`: sort newest first, then take
until an event is older than 7 days or 200 events are taken. -/
def filteredSample (now : ℤ) (events : List LLMUsageEvent) : List LLMUsageEvent :=
  windowTake (now - sevenDays) 200 (sortEventsDesc events)

/-- The validation loop of `compute_baseline`: index of the first event whose
`estimated_cost` is `None`. -/
def findMissingCost : List LLMUsageEvent → ℕ → Option ℕ
  | [], _ => none
  | e :: rest, i =>
      if e.estimated_cost = none then some i else findMissingCost rest (i + 1)

def eventCostQ (e : LLMUsageEvent) : ℚ := e.estimated_cost.getD 0

/-- The part of `compute_baseline` after validation and window filtering. -/
def baselineFromFiltered (filtered : List LLMUsageEvent) : Except String BaselineResult :=
  if filtered.isEmpty then .error "No events found within 7-day window"
  else
    let state := if 20 ≤ filtered.length then BaselineState.WARM else BaselineState.COLD
    let costs := filtered.map eventCostQ
    let tokens := filtered.map (fun e => (e.total_tokens : ℚ))
    match computeExactPercentile costs 50 with
    | .error e => .error e
    | .ok median_cost =>
      match computeExactPercentile costs 90 with
      | .error e => .error e
      | .ok p90_cost =>
        match computeExactPercentile tokens 50 with
        | .error e => .error e
        | .ok median_tokens =>
          let window_end := (filtered.headD defaultEvent).timestamp
          let window_start := (filtered.getLastD defaultEvent).timestamp
          match mkBaselineMetrics median_cost p90_cost (ratTrunc median_tokens)
              filtered.length with
          | .error e => .error e
          | .ok metrics => mkBaselineResult (some metrics) state window_start window_end

/-- Embedding of `baseline.py` `compute_baseline`; `now` is the wall-clock
time `datetime.now()`. -/
def compute_baseline (now : ℤ) (events : List LLMUsageEvent) : Except String BaselineResult :=
  if events.isEmpty then .error "Events list cannot be empty"
  else
    match findMissingCost events 0 with
    | some i => .error ("Event at index " ++ toString i ++ " missing estimated_cost")
    | none => baselineFromFiltered (filteredSample now events)

inductive AnomalySeverity where
  | WARNING
  | CRITICAL
  deriving DecidableEq

structure AnomalyEvent where
  feature : String
  model : String
  rule : String
  severity : AnomalySeverity
  observed_value : ℚ
  baseline_value : ℚ
  threshold : ℚ
  message : String
  deriving DecidableEq

/-- Embedding of `anomaly.py` `detect_anomalies`.  The Python guards
`baseline.metrics.p90_cost is not None` (and the one for `median_tokens`) are
modelled as presence of the optional `metrics` record, which is the only way a
baseline reaching this code can lack those values. -/
def detect_anomalies (feature model : String) (baseline : BaselineResult)
    (current_event : LLMUsageEvent) : Except String (List AnomalyEvent) :=
  if baseline.state = BaselineState.COLD then .ok []
  else
    match current_event.estimated_cost with
    | none => .error "Current event missing estimated_cost"
    | some cost =>
      let ruleA : List AnomalyEvent :=
        match baseline.metrics with
        | none => []
        | some m =>
          let threshold := m.p90_cost * (3 / 2 : ℚ)
          if threshold < cost then
            [⟨feature, model, "A", AnomalySeverity.CRITICAL, cost, m.p90_cost, threshold,
              "Cost spike detected: $" ++ toString cost ++ " (P90: $" ++
                toString m.p90_cost ++ " * 1.5 = $" ++ toString threshold ++ ")"⟩]
          else []
      let ruleB : List AnomalyEvent :=
        match baseline.metrics with
        | none => []
        | some m =>
          let threshold := (m.median_tokens : ℚ) * (17 / 10 : ℚ)
          if threshold < (current_event.total_tokens : ℚ) then
            [⟨feature, model, "B", AnomalySeverity.WARNING, (current_event.total_tokens : ℚ),
              (m.median_tokens : ℚ), threshold,
              "High token usage: " ++ toString current_event.total_tokens ++ " (Median: " ++
                toString m.median_tokens ++ " * 1.7 = " ++ toString threshold ++ ")"⟩]
          else []
      let ruleC : List AnomalyEvent :=
        match baseline.metrics with
        | none => []
        | some m =>
          if 1 < current_event.retry_count then
            let threshold := m.p90_cost * (13 / 10 : ℚ)
            let total_cost := cost * (current_event.retry_count : ℚ)
            if threshold < total_cost then
              [⟨feature, model, "C", AnomalySeverity.WARNING, total_cost, m.p90_cost, threshold,
                "Retry amplification: $" ++ toString total_cost ++ " ($" ++ toString cost ++
                  " * " ++ toString current_event.retry_count ++ " retries) > $" ++
                  toString threshold ++ " (P90: $" ++ toString m.p90_cost ++ " * 1.3)"⟩]
            else []
          else []
      .ok (ruleA ++ ruleB ++ ruleC)

inductive EnforcementAction where
  | ALLOW
  | WARN
  | DOWNGRADE
  | THROTTLE
  | BLOCK
  deriving DecidableEq

/-- The `auto()` severity values of the `EnforcementAction` enum. -/
def EnforcementAction.value : EnforcementAction → ℕ
  | .ALLOW => 1
  | .WARN => 2
  | .DOWNGRADE => 3
  | .THROTTLE => 4
  | .BLOCK => 5

structure GuardrailViolation where
  message : String
  action : EnforcementAction
  deriving DecidableEq

/-- `amount_remaining = none` models `float('inf')` (the unlimited dry-run
budget built by the simulation harness). -/
structure BudgetState where
  amount_used : ℚ
  amount_remaining : Option ℚ
  budget_period_days : ℤ
  deriving DecidableEq

structure GuardrailConfig where
  max_cost_per_request : Option ℚ := none
  budget_limit : Option ℚ := none
  on_budget_breach : EnforcementAction := .BLOCK
  on_critical_anomaly : EnforcementAction := .BLOCK
  on_warning_anomaly : EnforcementAction := .WARN
  deriving DecidableEq

/-- `budget_state.amount_remaining <= 0`; an unlimited budget compares false. -/
def amountRemainingNonPositive : Option ℚ → Bool
  | none => false
  | some q => decide (q ≤ 0)

/-- The `_update_action` closure of `enforce_guardrails`. -/
def updateAction (st : EnforcementAction × String) (na : EnforcementAction)
    (nm : String) : EnforcementAction × String :=
  if st.1.value < na.value then (na, nm) else st

def anomalyAction (config : GuardrailConfig) (a : AnomalyEvent) : EnforcementAction :=
  match a.severity with
  | .CRITICAL => config.on_critical_anomaly
  | .WARNING => config.on_warning_anomaly

def anomalyMessage (feature model : String) (a : AnomalyEvent) : String :=
  match a.severity with
  | .CRITICAL => "Critical anomaly detected in " ++ feature ++ "/" ++ model ++ ": " ++ a.message
  | .WARNING => "Warning anomaly in " ++ feature ++ "/" ++ model ++ ": " ++ a.message

/-- Check 1 condition: `config.max_cost_per_request is not None and
current_event.estimated_cost > config.max_cost_per_request`. -/
def ceilingFires (config : GuardrailConfig) (current_event : LLMUsageEvent) : Bool :=
  match config.max_cost_per_request, current_event.estimated_cost with
  | some limit, some cost => decide (limit < cost)
  | _, _ => false

/-- Check 2 condition: `config.budget_limit is not None and
budget_state.amount_remaining <= 0`. -/
def budgetFires (config : GuardrailConfig) (budget_state : BudgetState) : Bool :=
  config.budget_limit.isSome && amountRemainingNonPositive budget_state.amount_remaining

/-- The check-1 message (fires only when limit and cost are present, so the
defaults are never rendered). -/
def ceilingMessage (feature model : String) (config : GuardrailConfig)
    (current_event : LLMUsageEvent) : String :=
  "Request cost $" ++ toString (current_event.estimated_cost.getD 0) ++
    " exceeds maximum allowed $" ++ toString (config.max_cost_per_request.getD 0) ++
    " for " ++ feature ++ "/" ++ model

/-- The check-2 message. -/
def budgetMessage (feature : String) (config : GuardrailConfig)
    (budget_state : BudgetState) : String :=
  "Budget limit of $" ++ toString (config.budget_limit.getD 0) ++ " reached for " ++
    feature ++ ". Current spend: $" ++ toString budget_state.amount_used

/-- Lines 87-126 of `guardrails.py` `enforce_guardrails`: the three checks
folded through `_update_action`, producing the resolved action and message. -/
def enforceCore (feature model : String) (config : GuardrailConfig)
    (baseline : BaselineResult) (current_event : LLMUsageEvent)
    (anomalies : List AnomalyEvent) (budget_state : BudgetState) :
    EnforcementAction × String :=
  let st0 : EnforcementAction × String := (.ALLOW, "")
  let st1 :=
    if ceilingFires config current_event then
      updateAction st0 .BLOCK (ceilingMessage feature model config current_event)
    else st0
  let st2 :=
    if budgetFires config budget_state then
      updateAction st1 config.on_budget_breach (budgetMessage feature config budget_state)
    else st1
  if baseline.state = BaselineState.WARM then
    anomalies.foldl
      (fun st a => updateAction st (anomalyAction config a) (anomalyMessage feature model a))
      st2
  else st2

/-- Embedding of `guardrails.py` `enforce_guardrails`: raising
`GuardrailViolation` becomes returning `.error`. -/
def enforce_guardrails (feature model : String) (config : GuardrailConfig)
    (baseline : BaselineResult) (current_event : LLMUsageEvent)
    (anomalies : List AnomalyEvent) (budget_state : BudgetState) :
    Except GuardrailViolation EnforcementAction :=
  let st := enforceCore feature model config baseline current_event anomalies budget_state
  if st.1 = .BLOCK ∨ st.1 = .THROTTLE then .error ⟨st.2, st.1⟩ else .ok st.1

def maxAction (a b : EnforcementAction) : EnforcementAction :=
  if a.value < b.value then b else a

/-- The candidate actions of the three checks, as described by the spec:
ceiling contributes a hardcoded BLOCK, budget breach contributes the
configured action, and each anomaly contributes its configured action when
the baseline is WARM. -/
def candidateActions (config : GuardrailConfig) (baseline : BaselineResult)
    (current_event : LLMUsageEvent) (anomalies : List AnomalyEvent)
    (budget_state : BudgetState) : List EnforcementAction :=
  (if ceilingFires config current_event then [.BLOCK] else []) ++
    (if budgetFires config budget_state then [config.on_budget_breach] else []) ++
      (if baseline.state = BaselineState.WARM then anomalies.map (anomalyAction config) else [])

structure ModelPricing where
  prompt_cost_per_1k : ℚ
  completion_cost_per_1k : ℚ
  deriving DecidableEq

/-- The fixed pricing table of `pricing.py` (exact decimal rates). -/
def PRICING_TABLE : List (String × ModelPricing) :=
  [("gpt-4", ⟨30, 60⟩), ("gpt-3.5-turbo", ⟨3 / 2, 2⟩), ("claude-3-opus", ⟨15, 75⟩)]

/-- `PricingTable.get_pricing`. -/
def getPricing (model : String) : Except String ModelPricing :=
  match PRICING_TABLE.lookup model with
  | none => .error ("Unsupported model: " ++ model)
  | some p => .ok p

structure TokenUsage where
  prompt_tokens : ℕ
  completion_tokens : ℕ
  deriving DecidableEq

/-- `Decimal.quantize(Decimal("0.01"), rounding=ROUND_UP)`: round away from
zero to 2 decimal places. -/
def roundUp2 (q : ℚ) : ℚ :=
  if 0 ≤ q then ((⌈q * 100⌉ : ℤ) : ℚ) / 100 else ((⌊q * 100⌋ : ℤ) : ℚ) / 100

/-- `(prompt_tokens / 1000) * rate + (completion_tokens / 1000) * rate`. -/
def exactCost (pricing : ModelPricing) (usage : TokenUsage) : ℚ :=
  ((usage.prompt_tokens : ℚ) / 1000) * pricing.prompt_cost_per_1k +
    ((usage.completion_tokens : ℚ) / 1000) * pricing.completion_cost_per_1k

/-- Embedding of `pricing.py` `calculate_cost`. -/
def calculate_cost (model : String) (usage : TokenUsage) : Except String ℚ :=
  match getPricing model with
  | .error e => .error e
  | .ok pricing => .ok (roundUp2 (exactCost pricing usage))

inductive SimulationVerdict where
  | PASS
  | WARN
  | FAIL
  deriving DecidableEq

structure FeatureSimulationResult where
  feature : String
  model : String
  estimated_monthly_cost : ℚ
  anomalies : List AnomalyEvent
  violations : List (EnforcementAction × String)
  deriving DecidableEq

structure SimulationResult where
  per_feature_results : List FeatureSimulationResult
  overall_verdict : SimulationVerdict
  estimated_monthly_impact : ℚ
  deriving DecidableEq

/-- Embedding of `repository.py` `UsageRepository.get_recent_events`: filter
by feature and a `days` cutoff, `ORDER BY timestamp DESC LIMIT limit`.  The
SQL sort is modelled as a stable descending sort. -/
def get_recent_events (db : List LLMUsageEvent) (feature : Option String) (now : ℤ)
    (days : Option ℤ) (limit : ℕ) : List LLMUsageEvent :=
  let matching := db.filter fun e =>
    (match feature with | some f => decide (e.feature = f) | none => true) &&
      (match days with | some d => decide (now - d * 86400 ≤ e.timestamp) | none => true)
  (sortEventsDesc matching).take limit

def minTs (events : List LLMUsageEvent) : ℤ := ((events.map (·.timestamp)).min?).getD 0

def maxTs (events : List LLMUsageEvent) : ℤ := ((events.map (·.timestamp)).max?).getD 0

def sortAscZ (l : List ℤ) : List ℤ := l.insertionSort (· ≤ ·)

/-- Embedding of `simulation.py` `_create_baseline_from_events`.  The index
`int(len(costs) * 0.9)` equals `9 * len / 10` rounded down for every list
size reachable here (the float product rounds back to the exact value). -/
def createBaselineFromEvents (events : List LLMUsageEvent) : Except String BaselineResult :=
  if events.length < 3 then
    mkBaselineResult none BaselineState.COLD (minTs events) (maxTs events)
  else
    let costs := sortAscQ (events.map eventCostQ)
    let tokens := sortAscZ (events.map (·.total_tokens))
    match mkBaselineMetrics (costs.getD (costs.length / 2) 0)
        (costs.getD (9 * costs.length / 10) 0)
        (tokens.getD (tokens.length / 2) 0) events.length with
    | .error e => .error e
    | .ok metrics =>
        mkBaselineResult (some metrics) BaselineState.WARM (minTs events) (maxTs events)

/-- The dry-run `BudgetState` built by `_simulate_enforcement`
(`amount_remaining=float('inf')`). -/
def unlimitedBudget : BudgetState := ⟨0, none, 30⟩

def actionNameLower : EnforcementAction → String
  | .ALLOW => "allow"
  | .WARN => "warn"
  | .DOWNGRADE => "downgrade"
  | .THROTTLE => "throttle"
  | .BLOCK => "block"

/-- Embedding of `simulation.py` `_simulate_enforcement`: skip COLD baselines,
otherwise run enforcement with the unlimited budget, catching a raised
violation as data. -/
def simulateEnforcement (feature model : String) (config : GuardrailConfig)
    (baseline : BaselineResult) (current_event : LLMUsageEvent)
    (anomalies : List AnomalyEvent) : List (EnforcementAction × String) :=
  if baseline.state = BaselineState.COLD then []
  else
    match enforce_guardrails feature model config baseline current_event anomalies
        unlimitedBudget with
    | .ok action =>
        if action = .ALLOW then [] else [(action, "Simulated " ++ actionNameLower action)]
    | .error v => [(v.action, v.message)]

/-- Keys of the `events_by_feature` dict: first-occurrence order, like a
Python dict built with `setdefault`. -/
def dedupKeys (seen : List (String × String)) :
    List (String × String) → List (String × String)
  | [] => []
  | k :: rest => if k ∈ seen then dedupKeys seen rest else k :: dedupKeys (k :: seen) rest

/-- The events appended under key `k` of the `events_by_feature` dict. -/
def groupEvents (events : List LLMUsageEvent) (k : String × String) : List LLMUsageEvent :=
  events.filter fun e => decide (e.feature = k.1) && decide (e.model = k.2)

/-- `latest_event = feature_events[-1]`: the representative event the
simulation uses for a group. -/
def groupCurrent (events : List LLMUsageEvent) (k : String × String) : LLMUsageEvent :=
  (groupEvents events k).getLastD defaultEvent

/-- The body of the per-group loop of `simulate_cost_impact`. -/
def simulateGroup (config : GuardrailConfig) (events : List LLMUsageEvent)
    (k : String × String) : Except String FeatureSimulationResult :=
  let feature_events := groupEvents events k
  let latest_event := groupCurrent events k
  match createBaselineFromEvents feature_events with
  | .error e => .error e
  | .ok baseline =>
    match (if baseline.state = BaselineState.WARM
        then detect_anomalies k.1 k.2 baseline latest_event
        else .ok []) with
    | .error e => .error e
    | .ok anomalies =>
      let violations := simulateEnforcement k.1 k.2 config baseline latest_event anomalies
      let estimated_monthly := ((feature_events.map eventCostQ).sum / 30) * 30
      .ok ⟨k.1, k.2, estimated_monthly, anomalies, violations⟩

def mapMExcept {α β ε : Type} (f : α → Except ε β) : List α → Except ε (List β)
  | [] => .ok []
  | x :: xs =>
    match f x with
    | .error e => .error e
    | .ok y =>
      match mapMExcept f xs with
      | .error e => .error e
      | .ok ys => .ok (y :: ys)

/-- Embedding of `simulation.py` `_determine_overall_verdict`. -/
def determineOverallVerdict (results : List FeatureSimulationResult) : SimulationVerdict :=
  let has_blocking := results.any fun r => r.violations.any fun v =>
    decide (v.1 = EnforcementAction.BLOCK) || decide (v.1 = EnforcementAction.THROTTLE)
  let has_warnings := results.any fun r => r.violations.any fun v =>
    decide (v.1 = EnforcementAction.WARN)
  if has_blocking then .FAIL else if has_warnings then .WARN else .PASS

/-- Embedding of `simulation.py` `simulate_cost_impact` over an in-memory
ledger `db`; the store read is `get_recent_events` with `days=30`. -/
def simulate_cost_impact (feature : Option String) (config : GuardrailConfig)
    (db : List LLMUsageEvent) (now : ℤ) : Except String SimulationResult :=
  let events := get_recent_events db feature now (some 30) 1000
  if events.isEmpty then .ok ⟨[], .PASS, 0⟩
  else
    let keys := dedupKeys [] (events.map fun e => (e.feature, e.model))
    match mapMExcept (simulateGroup config events) keys with
    | .error e => .error e
    | .ok results =>
        .ok ⟨results, determineOverallVerdict results,
          (results.map (·.estimated_monthly_cost)).sum⟩

/-! Concrete inputs used by counterexamples and bug demonstrations. -/

/-- An event with all-equal timestamps and a given cost. -/
def c9Event (c : ℚ) : LLMUsageEvent := ⟨0, "checkout", "gpt-4", 0, 0, 0, some c, 0, none⟩

/-- 201 in-window events: 100 with cost 0 followed by 101 with cost 1. -/
def c9List1 : List LLMUsageEvent :=
  List.replicate 100 (c9Event 0) ++ List.replicate 101 (c9Event 1)

/-- The same multiset with the two blocks swapped. -/
def c9List2 : List LLMUsageEvent :=
  List.replicate 101 (c9Event 1) ++ List.replicate 100 (c9Event 0)

/-- The 25 synthetic cost values 1.0 .. 25.0 from the spec scenario. -/
def c3ExampleValues : List ℚ := (List.range 25).map (fun i => ((i : ℚ) + 1))

/-- Inserted first, with the older timestamp. -/
def c2OldEvent : LLMUsageEvent := ⟨0, "search", "gpt-4", 1, 1, 2, some 1, 0, some "first"⟩

/-- Inserted second, with the newer timestamp: the most-recently-inserted
event of the group. -/
def c2NewEvent : LLMUsageEvent := ⟨100, "search", "gpt-4", 1, 1, 2, some 2, 0, some "second"⟩

def c2Db : List LLMUsageEvent := [c2OldEvent, c2NewEvent]

/-- A single event whose cost is far above the configured ceiling. -/
def c8Event : LLMUsageEvent := ⟨0, "summarize", "gpt-4", 1, 1, 2, some 10, 0, none⟩

def c8Config : GuardrailConfig := { max_cost_per_request := some 1 }

/-! Helper lemmas about the guardrail resolution engine. -/

theorem updateAction_fst (st : EnforcementAction × String) (na : EnforcementAction)
    (nm : String) : (updateAction st na nm).1 = maxAction st.1 na := by
  by_cases h : st.1.value < na.value <;> simp [updateAction, maxAction, h]

theorem maxAction_allow_left (a : EnforcementAction) : maxAction .ALLOW a = a := by
  cases a <;> rfl

theorem maxAction_block_left (a : EnforcementAction) : maxAction .BLOCK a = .BLOCK := by
  cases a <;> rfl

theorem foldl_maxAction_block (l : List EnforcementAction) :
    l.foldl maxAction .BLOCK = .BLOCK := by
  induction l with
  | nil => rfl
  | cons a rest ih => simpa [List.foldl_cons, maxAction_block_left] using ih

theorem anomaly_foldl_fst (feature model : String) (config : GuardrailConfig)
    (anomalies : List AnomalyEvent) (st : EnforcementAction × String) :
    (anomalies.foldl (fun st a => updateAction st (anomalyAction config a)
        (anomalyMessage feature model a)) st).1 =
      (anomalies.map (anomalyAction config)).foldl maxAction st.1 := by
  induction anomalies generalizing st with
  | nil => rfl
  | cons a rest ih => simp [List.foldl_cons, ih, updateAction_fst]

/-- C1: the action resolved by `enforce_guardrails` is the severity-maximum of
the candidate actions of the three checks (ALLOW when none fired), and the
per-request-ceiling check always contributes a hardcoded BLOCK, so whenever it
fires (in particular together with a configured-WARN anomaly) the call resolves
to BLOCK and fails with a BLOCK violation. -/
theorem c1_resolved_action_is_max_of_candidates (feature model : String)
    (config : GuardrailConfig) (baseline : BaselineResult) (current_event : LLMUsageEvent)
    (anomalies : List AnomalyEvent) (budget_state : BudgetState) :
    (enforceCore feature model config baseline current_event anomalies budget_state).1 =
      (candidateActions config baseline current_event anomalies budget_state).foldl
        maxAction .ALLOW ∧
    (ceilingFires config current_event = true →
      ∃ v, enforce_guardrails feature model config baseline current_event anomalies
          budget_state = .error v ∧ v.action = .BLOCK) := by
  have hmain : (enforceCore feature model config baseline current_event anomalies
      budget_state).1 =
      (candidateActions config baseline current_event anomalies budget_state).foldl
        maxAction .ALLOW := by
    unfold enforceCore candidateActions
    by_cases hc : ceilingFires config current_event <;>
      by_cases hb : budgetFires config budget_state <;>
        by_cases hw : baseline.state = BaselineState.WARM <;>
          simp [hc, hb, hw, anomaly_foldl_fst, updateAction_fst, List.foldl_append,
            maxAction_allow_left]
  refine ⟨hmain, fun hc => ?_⟩
  have hblock : (candidateActions config baseline current_event anomalies
      budget_state).foldl maxAction .ALLOW = .BLOCK := by
    unfold candidateActions
    rw [if_pos hc]
    simp [List.foldl_append, maxAction_allow_left, foldl_maxAction_block]
  have h1 : (enforceCore feature model config baseline current_event anomalies
      budget_state).1 = .BLOCK := hmain.trans hblock
  refine ⟨⟨(enforceCore feature model config baseline current_event anomalies
    budget_state).2, .BLOCK⟩, ?_, rfl⟩
  simp only [enforce_guardrails]
  rw [h1]
  simp

/-- Witness for C1: a request over the ceiling together with a WARNING anomaly
whose configured action is WARN still fails with a BLOCK violation. -/
theorem c1_witness :
    ∃ v, enforce_guardrails "pay" "gpt-4" ⟨some 1, none, .BLOCK, .BLOCK, .WARN⟩
        ⟨some ⟨1, 1, 1, 20⟩, .WARM, 0, 0⟩ ⟨0, "pay", "gpt-4", 0, 0, 0, some 2, 0, none⟩
        [⟨"pay", "gpt-4", "B", .WARNING, 5, 1, 17 / 10, "tokens"⟩] ⟨0, some 100, 30⟩ =
        .error v ∧ v.action = .BLOCK :=
  (c1_resolved_action_is_max_of_candidates "pay" "gpt-4" _ _ _ _ _).2 (by decide)

/-- C6: a COLD baseline makes `detect_anomalies` return the empty list for
every current event, with no validation of the event's fields. -/
theorem c6_cold_baseline_detects_nothing (feature model : String)
    (baseline : BaselineResult) (current_event : LLMUsageEvent)
    (h : baseline.state = BaselineState.COLD) :
    detect_anomalies feature model baseline current_event = .ok [] := by
  simp [detect_anomalies, h]

/-- Witness for C6: an event with an absent cost and extreme tokens/retries is
still accepted silently against a COLD baseline. -/
theorem c6_witness :
    detect_anomalies "chat" "gpt-4" ⟨none, .COLD, 0, 0⟩
      ⟨0, "chat", "gpt-4", 0, 0, 10 ^ 9, none, 10 ^ 6, none⟩ = .ok [] :=
  c6_cold_baseline_detects_nothing _ _ _ _ rfl

/-- C7: `enforce_guardrails` fails with a violation carrying the resolved
action and message exactly when that action is BLOCK or THROTTLE; otherwise it
returns the resolved action as a value. -/
theorem c7_block_throttle_raise_others_return (feature model : String)
    (config : GuardrailConfig) (baseline : BaselineResult) (current_event : LLMUsageEvent)
    (anomalies : List AnomalyEvent) (budget_state : BudgetState) :
    ((∃ v, enforce_guardrails feature model config baseline current_event anomalies
          budget_state = .error v ∧
        v.action = (enforceCore feature model config baseline current_event anomalies
          budget_state).1 ∧
        v.message = (enforceCore feature model config baseline current_event anomalies
          budget_state).2) ↔
      ((enforceCore feature model config baseline current_event anomalies budget_state).1 =
          .BLOCK ∨
        (enforceCore feature model config baseline current_event anomalies budget_state).1 =
          .THROTTLE)) ∧
    (¬((enforceCore feature model config baseline current_event anomalies budget_state).1 =
          .BLOCK ∨
        (enforceCore feature model config baseline current_event anomalies budget_state).1 =
          .THROTTLE) →
      enforce_guardrails feature model config baseline current_event anomalies budget_state =
        .ok (enforceCore feature model config baseline current_event anomalies
          budget_state).1) := by
  by_cases h : (enforceCore feature model config baseline current_event anomalies
      budget_state).1 = .BLOCK ∨
      (enforceCore feature model config baseline current_event anomalies budget_state).1 =
        .THROTTLE
  · refine ⟨⟨fun _ => h, fun _ => ?_⟩, fun hn => absurd h hn⟩
    refine ⟨⟨(enforceCore feature model config baseline current_event anomalies
      budget_state).2,
      (enforceCore feature model config baseline current_event anomalies budget_state).1⟩,
      ?_, rfl, rfl⟩
    simp only [enforce_guardrails]
    rw [if_pos h]
  · have hok : enforce_guardrails feature model config baseline current_event anomalies
        budget_state = .ok (enforceCore feature model config baseline current_event
          anomalies budget_state).1 := by
      simp only [enforce_guardrails]
      rw [if_neg h]
    refine ⟨⟨fun hv => ?_, fun hc => absurd hc h⟩, fun _ => hok⟩
    obtain ⟨v, hv, -, -⟩ := hv
    rw [hok] at hv
    cases hv

/-- Witness for C7: a request over the ceiling resolves to BLOCK, so the call
fails with a violation carrying the resolved action and message. -/
theorem c7_witness :
    ∃ v, enforce_guardrails "pay" "gpt-4" ⟨some 1, none, .BLOCK, .BLOCK, .WARN⟩
        ⟨none, .COLD, 0, 0⟩ ⟨0, "pay", "gpt-4", 0, 0, 0, some 2, 0, none⟩ []
        ⟨0, none, 30⟩ = .error v ∧
      v.action = (enforceCore "pay" "gpt-4" ⟨some 1, none, .BLOCK, .BLOCK, .WARN⟩
        ⟨none, .COLD, 0, 0⟩ ⟨0, "pay", "gpt-4", 0, 0, 0, some 2, 0, none⟩ []
        ⟨0, none, 30⟩).1 ∧
      v.message = (enforceCore "pay" "gpt-4" ⟨some 1, none, .BLOCK, .BLOCK, .WARN⟩
        ⟨none, .COLD, 0, 0⟩ ⟨0, "pay", "gpt-4", 0, 0, 0, some 2, 0, none⟩ []
        ⟨0, none, 30⟩).2 :=
  (c7_block_throttle_raise_others_return "pay" "gpt-4" _ _ _ _ _).1.mpr (Or.inl (by decide))

/-- C5: against a WARM baseline with metrics present and a valid current
event, rule A (CRITICAL) fires iff cost > 1.5 x p90_cost, rule B (WARNING)
fires iff total tokens > 1.7 x median_tokens, rule C (WARNING) fires iff
retry_count > 1 and cost x retries > 1.3 x p90_cost, each with strict
inequality, and rule C records cost x retries as its observed value. -/
theorem c5_anomaly_rules_fire_on_strict_thresholds (feature model : String)
    (baseline : BaselineResult) (m : BaselineMetrics) (current_event : LLMUsageEvent)
    (cost : ℚ) (hw : baseline.state = BaselineState.WARM)
    (hm : baseline.metrics = some m) (hc : current_event.estimated_cost = some cost) :
    ∃ L, detect_anomalies feature model baseline current_event = .ok L ∧
      ((∃ a ∈ L, a.rule = "A") ↔ m.p90_cost * (3 / 2) < cost) ∧
      (∀ a ∈ L, a.rule = "A" → a.severity = .CRITICAL ∧ a.observed_value = cost) ∧
      ((∃ a ∈ L, a.rule = "B") ↔
        (m.median_tokens : ℚ) * (17 / 10) < (current_event.total_tokens : ℚ)) ∧
      (∀ a ∈ L, a.rule = "B" → a.severity = .WARNING ∧
        a.observed_value = (current_event.total_tokens : ℚ)) ∧
      ((∃ a ∈ L, a.rule = "C") ↔ (1 < current_event.retry_count ∧
        m.p90_cost * (13 / 10) < cost * (current_event.retry_count : ℚ))) ∧
      (∀ a ∈ L, a.rule = "C" → a.severity = .WARNING ∧
        a.observed_value = cost * (current_event.retry_count : ℚ)) := by
  cases hdet : detect_anomalies feature model baseline current_event with
  | error e =>
    simp only [detect_anomalies, hw, hm, hc] at hdet
    by_cases hA : m.p90_cost * (3 / 2) < cost <;>
      by_cases hB : (m.median_tokens : ℚ) * (17 / 10) < (current_event.total_tokens : ℚ) <;>
        by_cases hR : 1 < current_event.retry_count <;>
          by_cases hC : m.p90_cost * (13 / 10) < cost * (current_event.retry_count : ℚ) <;>
            simp [hA, hB, hR, hC] at hdet
  | ok L =>
    simp only [detect_anomalies, hw, hm, hc] at hdet
    refine ⟨L, rfl, ?_, ?_, ?_, ?_, ?_, ?_⟩ <;>
      by_cases hA : m.p90_cost * (3 / 2) < cost <;>
        by_cases hB : (m.median_tokens : ℚ) * (17 / 10) < (current_event.total_tokens : ℚ) <;>
          by_cases hR : 1 < current_event.retry_count <;>
            by_cases hC : m.p90_cost * (13 / 10) < cost * (current_event.retry_count : ℚ) <;>
              simp [hA, hB, hR, hC] at hdet <;> subst hdet <;> simp [hA, hB, hR, hC]

/-- Witness for C5: p90=10, median_tokens=1000, an event with cost 16,
tokens 1800 and 2 retries fires rule A. -/
theorem c5_witness :
    ∃ L, detect_anomalies "chat" "gpt-4" ⟨some ⟨10, 10, 1000, 25⟩, .WARM, 0, 0⟩
        ⟨0, "chat", "gpt-4", 900, 900, 1800, some 16, 2, none⟩ = .ok L ∧
      ∃ a ∈ L, a.rule = "A" := by
  obtain ⟨L, hdet, hA, -⟩ := c5_anomaly_rules_fire_on_strict_thresholds "chat" "gpt-4"
    ⟨some ⟨10, 10, 1000, 25⟩, .WARM, 0, 0⟩ ⟨10, 10, 1000, 25⟩
    ⟨0, "chat", "gpt-4", 900, 900, 1800, some 16, 2, none⟩ 16 rfl rfl rfl
  exact ⟨L, hdet, hA.mpr (by decide)⟩

theorem q_le_roundUp2 (q : ℚ) (h : 0 ≤ q) : q ≤ roundUp2 q := by
  unfold roundUp2
  rw [if_pos h]
  have h1 : (q * 100 : ℚ) ≤ ((⌈q * 100⌉ : ℤ) : ℚ) := Int.le_ceil _
  linarith

/-- C10: for a model in the fixed pricing table, `calculate_cost` returns the
exact per-1k-token cost rounded up to 2 decimals (never below the exact
cost); for an unknown model it fails naming the model. -/
theorem c10_calculate_cost_exact_rounded_up (model : String) (usage : TokenUsage) :
    (∀ pricing, PRICING_TABLE.lookup model = some pricing →
      calculate_cost model usage = .ok (roundUp2 (exactCost pricing usage)) ∧
        exactCost pricing usage ≤ roundUp2 (exactCost pricing usage)) ∧
    (PRICING_TABLE.lookup model = none →
      calculate_cost model usage = .error ("Unsupported model: " ++ model)) := by
  constructor
  · intro pricing hp
    have hcalc : calculate_cost model usage = .ok (roundUp2 (exactCost pricing usage)) := by
      unfold calculate_cost getPricing
      rw [hp]
    have hnn : 0 ≤ pricing.prompt_cost_per_1k ∧ 0 ≤ pricing.completion_cost_per_1k := by
      simp only [PRICING_TABLE, List.lookup] at hp
      split at hp
      · cases hp with | refl => exact ⟨by norm_num, by norm_num⟩
      · split at hp
        · cases hp with | refl => exact ⟨by norm_num, by norm_num⟩
        · split at hp
          · cases hp with | refl => exact ⟨by norm_num, by norm_num⟩
          · cases hp
    have hexact : (0 : ℚ) ≤ exactCost pricing usage := by
      unfold exactCost
      exact add_nonneg (mul_nonneg (by positivity) hnn.1) (mul_nonneg (by positivity) hnn.2)
    exact ⟨hcalc, q_le_roundUp2 _ hexact⟩
  · intro hp
    unfold calculate_cost getPricing
    rw [hp]

/-- Witness for C10: gpt-4 at 1500 prompt and 500 completion tokens. -/
theorem c10_witness :
    calculate_cost "gpt-4" ⟨1500, 500⟩ = .ok (roundUp2 (exactCost ⟨30, 60⟩ ⟨1500, 500⟩)) ∧
      exactCost ⟨30, 60⟩ ⟨1500, 500⟩ ≤ roundUp2 (exactCost ⟨30, 60⟩ ⟨1500, 500⟩) :=
  (c10_calculate_cost_exact_rounded_up "gpt-4" ⟨1500, 500⟩).1 ⟨30, 60⟩ (by decide)

/-! Helper lemmas about sorting and the percentile helper. -/

theorem sortAscQ_perm (l : List ℚ) : (sortAscQ l).Perm l := List.perm_insertionSort _ l

theorem sortAscQ_sorted (l : List ℚ) : List.Sorted (· ≤ ·) (sortAscQ l) :=
  List.sorted_insertionSort _ l

theorem sortAscQ_length (l : List ℚ) : (sortAscQ l).length = l.length :=
  (sortAscQ_perm l).length_eq

theorem ratTrunc_of_nonneg (q : ℚ) (h : 0 ≤ q) : ratTrunc q = ⌊q⌋ := by
  rw [Rat.floor_def]
  unfold ratTrunc
  have hn : 0 ≤ q.num := Rat.num_nonneg.mpr h
  match q.num, hn with
  | Int.ofNat n, _ => rfl

theorem ratTrunc_natCast (k : ℕ) : ratTrunc ((k : ℕ) : ℚ) = (k : ℤ) :=
  (ratTrunc_of_nonneg _ (by positivity)).trans (Int.floor_natCast k)

theorem length_pos_of_ne_nil {α : Type} (l : List α) (h : l ≠ []) : 1 ≤ l.length := by
  cases l with
  | nil => exact absurd rfl h
  | cons a t => simp [Nat.succ_le_succ]

theorem percentilePosition_bounds (n : ℕ) (p : ℤ) (hn : 1 ≤ n) (h0 : 0 ≤ p)
    (h1 : p ≤ 100) :
    0 ≤ percentilePosition n p ∧ percentilePosition n p ≤ (n : ℚ) - 1 := by
  have hn1 : (1 : ℚ) ≤ (n : ℚ) := by exact_mod_cast hn
  have hnn : (0 : ℚ) ≤ (n : ℚ) - 1 := by linarith
  unfold percentilePosition
  constructor
  · exact mul_nonneg (div_nonneg (by exact_mod_cast h0) (by norm_num)) hnn
  · have hp : ((p : ℚ)) / 100 ≤ 1 := by
      rw [div_le_one (by norm_num)]
      exact_mod_cast h1
    exact mul_le_of_le_one_left hnn hp

theorem percentileValue_eq (values : List ℚ) (p : ℤ) (k : ℕ)
    (hpos : percentilePosition (sortAscQ values).length p = ((k : ℕ) : ℚ)) :
    percentileValue values p = (sortAscQ values).getD k 0 := by
  simp only [percentileValue, lowerIndexOf]
  rw [hpos, ratTrunc_natCast, Int.toNat_natCast, sub_self, zero_mul, add_zero]

theorem computeExactPercentile_valid (values : List ℚ) (p : ℤ) (hne : values ≠ [])
    (h0 : 0 ≤ p) (h1 : p ≤ 100) :
    computeExactPercentile values p = .ok (percentileValue values p) := by
  have he : values.isEmpty = false := by
    cases values with
    | nil => exact absurd rfl hne
    | cons a t => rfl
  have hr : ¬(p < 0 ∨ 100 < p) := by omega
  unfold computeExactPercentile
  rw [he]
  simp [hr]

theorem lowerIndexOf_le (values : List ℚ) (p : ℤ) (hne : values ≠ []) (h0 : 0 ≤ p)
    (h1 : p ≤ 100) : lowerIndexOf values p ≤ (sortAscQ values).length - 1 := by
  have hn : 1 ≤ (sortAscQ values).length := by
    rw [sortAscQ_length]
    exact length_pos_of_ne_nil values hne
  obtain ⟨hpos0, hpos1⟩ := percentilePosition_bounds (sortAscQ values).length p hn h0 h1
  unfold lowerIndexOf
  rw [ratTrunc_of_nonneg _ hpos0]
  have hfl : ⌊percentilePosition (sortAscQ values).length p⌋ ≤
      ((sortAscQ values).length : ℤ) - 1 := by
    have hmono := Int.floor_le_floor hpos1
    rwa [show ((sortAscQ values).length : ℚ) - 1 =
        (((sortAscQ values).length : ℤ) - 1 : ℤ) * (1 : ℚ) by push_cast; ring,
      mul_one, Int.floor_intCast] at hmono
  omega

theorem sorted_getD_mono (l : List ℚ) (hs : List.Sorted (· ≤ ·) l) {i j : ℕ}
    (hij : i ≤ j) (hj : j < l.length) : l.getD i 0 ≤ l.getD j 0 := by
  have hi : i < l.length := lt_of_le_of_lt hij hj
  rw [List.getD_eq_get l 0 hi, List.getD_eq_get l 0 hj]
  exact hs.rel_get_of_le (show (⟨i, hi⟩ : Fin l.length) ≤ ⟨j, hj⟩ from hij)

theorem getD_mem_of_lt (l : List ℚ) (i : ℕ) (h : i < l.length) : l.getD i 0 ∈ l := by
  rw [List.getD_eq_get l 0 h]
  exact l.get_mem _ _

theorem sorted_getD_zero_le (l : List ℚ) (hs : List.Sorted (· ≤ ·) l) :
    ∀ x ∈ l, l.getD 0 0 ≤ x := by
  intro x hx
  obtain ⟨⟨i, hi⟩, rfl⟩ := List.mem_iff_get.mp hx
  rw [List.getD_eq_get l 0 (by omega)]
  exact hs.rel_get_of_le (show (⟨0, by omega⟩ : Fin l.length) ≤ ⟨i, hi⟩ from by
    simp [Fin.le_def])

theorem sorted_le_getD_last (l : List ℚ) (hs : List.Sorted (· ≤ ·) l) :
    ∀ x ∈ l, x ≤ l.getD (l.length - 1) 0 := by
  intro x hx
  obtain ⟨⟨i, hi⟩, rfl⟩ := List.mem_iff_get.mp hx
  rw [List.getD_eq_get l 0 (by omega)]
  exact hs.rel_get_of_le (show (⟨i, hi⟩ : Fin l.length) ≤ ⟨l.length - 1, by omega⟩ from by
    simp [Fin.le_def]; omega)

theorem percentileValue_between (values : List ℚ) (p : ℤ) (hne : values ≠ [])
    (h0 : 0 ≤ p) (h1 : p ≤ 100) :
    (sortAscQ values).getD (lowerIndexOf values p) 0 ≤ percentileValue values p ∧
      percentileValue values p ≤ (sortAscQ values).getD (upperIndexOf values p) 0 := by
  have hn : 1 ≤ (sortAscQ values).length := by
    rw [sortAscQ_length]
    exact length_pos_of_ne_nil values hne
  obtain ⟨hpos0, hpos1⟩ := percentilePosition_bounds (sortAscQ values).length p hn h0 h1
  have hli : lowerIndexOf values p ≤ (sortAscQ values).length - 1 :=
    lowerIndexOf_le values p hne h0 h1
  have hlu : lowerIndexOf values p ≤ upperIndexOf values p :=
    le_min (Nat.le_succ _) hli
  have huin : upperIndexOf values p < (sortAscQ values).length :=
    lt_of_le_of_lt (min_le_right _ _) (by omega)
  have hmono : (sortAscQ values).getD (lowerIndexOf values p) 0 ≤
      (sortAscQ values).getD (upperIndexOf values p) 0 :=
    sorted_getD_mono _ (sortAscQ_sorted values) hlu huin
  have hfl0 : (0 : ℤ) ≤ ⌊percentilePosition (sortAscQ values).length p⌋ :=
    Int.floor_nonneg.mpr hpos0
  have hcast : ((lowerIndexOf values p : ℕ) : ℚ) =
      ((⌊percentilePosition (sortAscQ values).length p⌋ : ℤ) : ℚ) := by
    unfold lowerIndexOf
    rw [ratTrunc_of_nonneg _ hpos0]
    exact_mod_cast congrArg (fun z => ((z : ℤ) : ℚ)) (Int.toNat_of_nonneg hfl0)
  have hfrac0 : 0 ≤ percentilePosition (sortAscQ values).length p -
      ((lowerIndexOf values p : ℕ) : ℚ) := by
    rw [hcast]
    have := Int.floor_le (percentilePosition (sortAscQ values).length p)
    linarith
  have hfrac1 : percentilePosition (sortAscQ values).length p -
      ((lowerIndexOf values p : ℕ) : ℚ) ≤ 1 := by
    rw [hcast]
    have := Int.lt_floor_add_one (percentilePosition (sortAscQ values).length p)
    push_cast at this ⊢
    linarith
  simp only [percentileValue]
  constructor
  · have := mul_nonneg hfrac0 (sub_nonneg.mpr hmono)
    linarith
  · have := mul_le_of_le_one_left (sub_nonneg.mpr hmono) hfrac1
    linarith

/-- C3: the percentile helper fails on an empty list or a percentile outside
0..100; on valid input it linearly interpolates over the ascending sort at
0-indexed position (p/100)(n-1): percentile 0 is the minimum, percentile 100
the maximum, an integer position returns that sorted element exactly, a
fractional position lies between the bracketing sorted values, and on the
values 1..25 the median is 13 and the 90th percentile is 22.6. -/
theorem c3_percentile_interpolation (values : List ℚ) (p : ℤ) :
    (values = [] → computeExactPercentile values p = .error "Values list cannot be empty") ∧
    (values ≠ [] → (p < 0 ∨ 100 < p) →
      computeExactPercentile values p = .error "Percentile must be between 0 and 100") ∧
    (values ≠ [] → 0 ≤ p → p ≤ 100 →
      computeExactPercentile values p = .ok (percentileValue values p) ∧
      (sortAscQ values).getD (lowerIndexOf values p) 0 ≤ percentileValue values p ∧
      percentileValue values p ≤ (sortAscQ values).getD (upperIndexOf values p) 0) ∧
    (values ≠ [] →
      computeExactPercentile values 0 = .ok ((sortAscQ values).getD 0 0) ∧
      (sortAscQ values).getD 0 0 ∈ values ∧
      ∀ x ∈ values, (sortAscQ values).getD 0 0 ≤ x) ∧
    (values ≠ [] →
      computeExactPercentile values 100 =
        .ok ((sortAscQ values).getD ((sortAscQ values).length - 1) 0) ∧
      (sortAscQ values).getD ((sortAscQ values).length - 1) 0 ∈ values ∧
      ∀ x ∈ values, x ≤ (sortAscQ values).getD ((sortAscQ values).length - 1) 0) ∧
    (∀ k : ℕ, values ≠ [] → 0 ≤ p → p ≤ 100 →
      percentilePosition (sortAscQ values).length p = ((k : ℕ) : ℚ) →
      computeExactPercentile values p = .ok ((sortAscQ values).getD k 0)) ∧
    computeExactPercentile c3ExampleValues 50 = .ok 13 ∧
    computeExactPercentile c3ExampleValues 90 = .ok (113 / 5) := by
  have hn : values ≠ [] → 1 ≤ (sortAscQ values).length := fun hne => by
    rw [sortAscQ_length]
    exact length_pos_of_ne_nil values hne
  refine ⟨?_, ?_, ?_, ?_, ?_, ?_, ?_, ?_⟩
  · intro h
    subst h
    rfl
  · intro hne hbad
    have he : values.isEmpty = false := by
      cases values with
      | nil => exact absurd rfl hne
      | cons a t => rfl
    unfold computeExactPercentile
    rw [he]
    simp [hbad]
  · intro hne h0 h1
    exact ⟨computeExactPercentile_valid values p hne h0 h1,
      percentileValue_between values p hne h0 h1⟩
  · intro hne
    have hpos : percentilePosition (sortAscQ values).length 0 = ((0 : ℕ) : ℚ) := by
      unfold percentilePosition
      norm_num
    have hv := percentileValue_eq values 0 0 hpos
    refine ⟨?_, ?_, ?_⟩
    · rw [computeExactPercentile_valid values 0 hne le_rfl (by norm_num), hv]
    · exact (sortAscQ_perm values).mem_iff.mp
        (getD_mem_of_lt _ 0 (lt_of_lt_of_le Nat.zero_lt_one (hn hne)))
    · intro x hx
      exact sorted_getD_zero_le _ (sortAscQ_sorted values) x
        ((sortAscQ_perm values).mem_iff.mpr hx)
  · intro hne
    have h1n := hn hne
    have hpos : percentilePosition (sortAscQ values).length 100 =
        (((sortAscQ values).length - 1 : ℕ) : ℚ) := by
      unfold percentilePosition
      rw [Nat.cast_sub h1n]
      norm_num
    have hv := percentileValue_eq values 100 _ hpos
    refine ⟨?_, ?_, ?_⟩
    · rw [computeExactPercentile_valid values 100 hne (by norm_num) le_rfl, hv]
    · exact (sortAscQ_perm values).mem_iff.mp
        (getD_mem_of_lt _ _ (by omega))
    · intro x hx
      exact sorted_le_getD_last _ (sortAscQ_sorted values) x
        ((sortAscQ_perm values).mem_iff.mpr hx)
  · intro k hne h0 h1 hpos
    rw [computeExactPercentile_valid values p hne h0 h1, percentileValue_eq values p k hpos]
  · decide
  · decide

/-- Witness for C3: on the two-element list [5, 1], percentile 0 returns the
minimum 1. -/
theorem c3_witness :
    computeExactPercentile [5, 1] 0 = .ok ((sortAscQ [5, 1]).getD 0 0) ∧
      (sortAscQ [5, 1]).getD 0 0 ∈ ([5, 1] : List ℚ) ∧
      ∀ x ∈ ([5, 1] : List ℚ), (sortAscQ [5, 1]).getD 0 0 ≤ x :=
  (c3_percentile_interpolation [5, 1] 0).2.2.2.1 (by decide)

theorem findMissingCost_some_of_mem (l : List LLMUsageEvent)
    (h : ∃ e ∈ l, e.estimated_cost = none) : ∀ i, ∃ j, findMissingCost l i = some j := by
  induction l with
  | nil =>
    obtain ⟨e, he, -⟩ := h
    cases he
  | cons a t ih =>
    intro i
    by_cases ha : a.estimated_cost = none
    · exact ⟨i, by simp [findMissingCost, ha]⟩
    · obtain ⟨e, he, hce⟩ := h
      rcases List.mem_cons.mp he with rfl | he
      · exact absurd hce ha
      · obtain ⟨j, hj⟩ := ih ⟨e, he, hce⟩ (i + 1)
        exact ⟨j, by simp [findMissingCost, ha, hj]⟩

theorem mkBaselineResult_ok (metrics : Option BaselineMetrics) (state : BaselineState)
    (ws we : ℤ) (r : BaselineResult) (h : mkBaselineResult metrics state ws we = .ok r) :
    r = ⟨metrics, state, ws, we⟩ := by
  unfold mkBaselineResult at h
  split at h
  · cases h
  · cases h
    rfl

theorem mkBaselineMetrics_ok (a b : ℚ) (c : ℤ) (n : ℕ) (m : BaselineMetrics)
    (h : mkBaselineMetrics a b c n = .ok m) : m = ⟨a, b, c, n⟩ := by
  unfold mkBaselineMetrics at h
  split at h
  · cases h
  · split at h
    · cases h
    · split at h
      · cases h
      · split at h
        · cases h
        · cases h
          rfl

theorem baselineFromFiltered_ok (filtered : List LLMUsageEvent) (r : BaselineResult)
    (h : baselineFromFiltered filtered = .ok r) :
    r.state = (if 20 ≤ filtered.length then BaselineState.WARM else BaselineState.COLD) ∧
      ∃ m, r.metrics = some m ∧ m.sample_count = filtered.length := by
  simp only [baselineFromFiltered] at h
  split at h
  · cases h
  · cases h50 : computeExactPercentile (List.map eventCostQ filtered) 50 with
    | error e => rw [h50] at h; cases h
    | ok mc =>
      rw [h50] at h
      cases h90 : computeExactPercentile (List.map eventCostQ filtered) 90 with
      | error e => rw [h90] at h; cases h
      | ok p90 =>
        rw [h90] at h
        cases ht : computeExactPercentile
            (List.map (fun e => (e.total_tokens : ℚ)) filtered) 50 with
        | error e => rw [ht] at h; cases h
        | ok mt =>
          rw [ht] at h
          dsimp only at h
          cases hm : mkBaselineMetrics mc p90 (ratTrunc mt) filtered.length with
          | error e => rw [hm] at h; cases h
          | ok metrics =>
            rw [hm] at h
            dsimp only at h
            have hr := mkBaselineResult_ok _ _ _ _ _ h
            have hmm := mkBaselineMetrics_ok _ _ _ _ _ hm
            subst hr
            subst hmm
            exact ⟨rfl, ⟨_, rfl, rfl⟩⟩

/-- C4: `compute_baseline` fails on an empty list or a missing cost value, or
when the filtered sample (newest-first, within 7 days, capped at 200) is
empty; on success the state is WARM exactly when the filtered sample has at
least 20 events, and the reported sample count is the filtered sample size. -/
theorem c4_compute_baseline_window_and_state (now : ℤ) (events : List LLMUsageEvent) :
    ((events = [] ∨ ∃ e ∈ events, e.estimated_cost = none) →
      ∃ msg, compute_baseline now events = .error msg) ∧
    (filteredSample now events = [] → ∃ msg, compute_baseline now events = .error msg) ∧
    (∀ r, compute_baseline now events = .ok r →
      (r.state = BaselineState.WARM ↔ 20 ≤ (filteredSample now events).length) ∧
      ∃ m, r.metrics = some m ∧ m.sample_count = (filteredSample now events).length) := by
  refine ⟨?_, ?_, ?_⟩
  · rintro (rfl | hmem)
    · exact ⟨_, rfl⟩
    · obtain ⟨j, hj⟩ := findMissingCost_some_of_mem events hmem 0
      cases events with
      | nil => exact ⟨_, rfl⟩
      | cons a t =>
        refine ⟨"Event at index " ++ toString j ++ " missing estimated_cost", ?_⟩
        simp only [compute_baseline, List.isEmpty_cons, Bool.false_eq_true, if_false]
        rw [hj]
  · intro hf
    cases events with
    | nil => exact ⟨_, rfl⟩
    | cons a t =>
      cases hfind : findMissingCost (a :: t) 0 with
      | some j =>
        refine ⟨"Event at index " ++ toString j ++ " missing estimated_cost", ?_⟩
        simp only [compute_baseline, List.isEmpty_cons, Bool.false_eq_true, if_false]
        rw [hfind]
      | none =>
        refine ⟨"No events found within 7-day window", ?_⟩
        simp only [compute_baseline, List.isEmpty_cons, Bool.false_eq_true, if_false]
        rw [hfind, hf]
        rfl
  · intro r hr
    unfold compute_baseline at hr
    split at hr
    · cases hr
    · split at hr
      · cases hr
      · obtain ⟨hstate, m, hm, hcount⟩ := baselineFromFiltered_ok _ r hr
        refine ⟨?_, ⟨m, hm, hcount⟩⟩
        rw [hstate]
        by_cases hl : 20 ≤ (filteredSample now events).length <;> simp [hl]

/-- Witness for C4: a singleton list whose event lacks a cost makes
`compute_baseline` fail. -/
theorem c4_witness :
    ∃ msg, compute_baseline 0 [⟨0, "f", "m", 1, 1, 2, none, 0, none⟩] = .error msg :=
  (c4_compute_baseline_window_and_state 0 [⟨0, "f", "m", 1, 1, 2, none, 0, none⟩]).1
    (Or.inr ⟨_, List.mem_singleton_self _, rfl⟩)

/-- C2 (bug demonstration): the repository returns events newest-first, and
the simulation takes `feature_events[-1]` as the representative current event,
so it picks the group's oldest fetched event, not the most-recently-inserted
one: on a two-event group it returns the first-inserted, older event even
though the second-inserted, strictly newer event is in the group. -/
theorem c2_simulation_uses_oldest_event :
    groupCurrent (get_recent_events c2Db none 100 (some 30) 1000) ("search", "gpt-4") =
        c2OldEvent ∧
      c2NewEvent ∈ groupEvents (get_recent_events c2Db none 100 (some 30) 1000)
        ("search", "gpt-4") ∧
      c2OldEvent.timestamp < c2NewEvent.timestamp :=
  ⟨by decide, by decide, by decide⟩

theorem mapMExcept_ok_mem {α β ε : Type} (f : α → Except ε β) (l : List α) (ys : List β)
    (h : mapMExcept f l = .ok ys) : ∀ y ∈ ys, ∃ x ∈ l, f x = .ok y := by
  induction l generalizing ys with
  | nil =>
    simp only [mapMExcept] at h
    cases h
    simp
  | cons x xs ih =>
    simp only [mapMExcept] at h
    cases hf : f x with
    | error e => rw [hf] at h; cases h
    | ok y0 =>
      rw [hf] at h
      dsimp only at h
      cases hrest : mapMExcept f xs with
      | error e => rw [hrest] at h; cases h
      | ok ys0 =>
        rw [hrest] at h
        dsimp only at h
        cases h
        intro y hy
        rcases List.mem_cons.mp hy with rfl | hy
        · exact ⟨x, List.mem_cons_self x xs, hf⟩
        · obtain ⟨x', hx', h'⟩ := ih ys0 hrest y hy
          exact ⟨x', List.mem_cons_of_mem x hx', h'⟩

theorem simulateGroup_ok (config : GuardrailConfig) (events : List LLMUsageEvent)
    (k : String × String) (fr : FeatureSimulationResult)
    (h : simulateGroup config events k = .ok fr) :
    ∃ baseline anomalies,
      createBaselineFromEvents (groupEvents events k) = .ok baseline ∧
        fr.violations = simulateEnforcement k.1 k.2 config baseline
          (groupCurrent events k) anomalies := by
  simp only [simulateGroup] at h
  cases hb : createBaselineFromEvents (groupEvents events k) with
  | error e => rw [hb] at h; cases h
  | ok baseline =>
    rw [hb] at h
    dsimp only at h
    cases ha : (if baseline.state = BaselineState.WARM
        then detect_anomalies k.1 k.2 baseline (groupCurrent events k)
        else .ok []) with
    | error e => rw [ha] at h; cases h
    | ok anomalies =>
      rw [ha] at h
      dsimp only at h
      cases h
      exact ⟨baseline, anomalies, rfl, rfl⟩

/-- C8 as written is refuted: for a COLD-baseline group `_simulate_enforcement`
returns before running enforcement, so a per-request-ceiling violation that
enforcement would raise for that group is not recorded: the single-event group
below yields an empty violations list and a PASS verdict even though
enforcement at its event fails with BLOCK under the unlimited dry-run budget. -/
theorem c8_counterexample :
    simulate_cost_impact none c8Config [c8Event] 0 =
        .ok ⟨[⟨"summarize", "gpt-4", 10, [], []⟩], .PASS, 10⟩ ∧
      createBaselineFromEvents (groupEvents
          (get_recent_events [c8Event] none 0 (some 30) 1000) ("summarize", "gpt-4")) =
        .ok ⟨none, .COLD, 0, 0⟩ ∧
      enforce_guardrails "summarize" "gpt-4" c8Config ⟨none, .COLD, 0, 0⟩ c8Event []
          unlimitedBudget =
        .error ⟨"Request cost $10 exceeds maximum allowed $1 for summarize/gpt-4", .BLOCK⟩ :=
  ⟨by decide, by decide, by decide⟩

/-- C8 amended: for every WARM-baseline group the simulation runs enforcement
in dry-run mode with the unlimited budget and records a raised violation (or a
non-ALLOW returned action) as data instead of propagating it; for COLD groups
enforcement is skipped and the violations list is empty; every per-feature
result of `simulate_cost_impact` gets its violations this way. -/
theorem c8_dry_run_enforcement_captures_violations (feature model : String)
    (config : GuardrailConfig) (baseline : BaselineResult) (current_event : LLMUsageEvent)
    (anomalies : List AnomalyEvent) :
    (baseline.state = BaselineState.COLD →
      simulateEnforcement feature model config baseline current_event anomalies = []) ∧
    (baseline.state = BaselineState.WARM →
      ∀ v, enforce_guardrails feature model config baseline current_event anomalies
          unlimitedBudget = .error v →
        simulateEnforcement feature model config baseline current_event anomalies =
          [(v.action, v.message)]) ∧
    (baseline.state = BaselineState.WARM →
      ∀ a, enforce_guardrails feature model config baseline current_event anomalies
          unlimitedBudget = .ok a →
        simulateEnforcement feature model config baseline current_event anomalies =
          (if a = .ALLOW then [] else [(a, "Simulated " ++ actionNameLower a)])) ∧
    (∀ fopt db now res, simulate_cost_impact fopt config db now = .ok res →
      ∀ fr ∈ res.per_feature_results, ∃ k b an,
        createBaselineFromEvents
            (groupEvents (get_recent_events db fopt now (some 30) 1000) k) = .ok b ∧
          fr.violations = simulateEnforcement k.1 k.2 config b
            (groupCurrent (get_recent_events db fopt now (some 30) 1000) k) an) := by
  have hcold : baseline.state = BaselineState.WARM →
      ¬(baseline.state = BaselineState.COLD) := by
    intro hw
    simp [hw]
  refine ⟨?_, ?_, ?_, ?_⟩
  · intro h
    simp [simulateEnforcement, h]
  · intro hw v hv
    simp only [simulateEnforcement]
    rw [if_neg (hcold hw), hv]
  · intro hw a ha
    simp only [simulateEnforcement]
    rw [if_neg (hcold hw), ha]
  · intro fopt db now res hres fr hfr
    simp only [simulate_cost_impact] at hres
    split at hres
    · cases hres
      simp at hfr
    · cases hmap : mapMExcept
          (simulateGroup config (get_recent_events db fopt now (some 30) 1000))
          (dedupKeys [] ((get_recent_events db fopt now (some 30) 1000).map
            fun e => (e.feature, e.model))) with
      | error e => rw [hmap] at hres; cases hres
      | ok results =>
        rw [hmap] at hres
        dsimp only at hres
        cases hres
        obtain ⟨k, hk, hgk⟩ := mapMExcept_ok_mem _ _ _ hmap fr hfr
        obtain ⟨b, an, hb, hviol⟩ := simulateGroup_ok _ _ _ _ hgk
        exact ⟨k, b, an, hb, hviol⟩

/-- Witness for C8 (amended): a COLD group records no violations. -/
theorem c8_witness :
    simulateEnforcement "billing" "gpt-4" c8Config ⟨none, .COLD, 0, 0⟩ c8Event [] = [] :=
  (c8_dry_run_enforcement_captures_violations "billing" "gpt-4" c8Config
    ⟨none, .COLD, 0, 0⟩ c8Event []).1 rfl

set_option maxRecDepth 40000 in
/-- C9 as written is refuted: with 201 same-timestamp in-window events the
200-event cap keeps a different sub-multiset for different input orders, so
two permutations of the same events produce different baselines (median 1/2
versus 1). -/
theorem c9_counterexample :
    c9List1.Perm c9List2 ∧ compute_baseline 0 c9List1 ≠ compute_baseline 0 c9List2 :=
  ⟨List.perm_append_comm, by decide⟩

/-! Helper lemmas for permutation invariance of the baseline computation. -/

theorem sortEventsDesc_perm (l : List LLMUsageEvent) : (sortEventsDesc l).Perm l :=
  List.perm_insertionSort _ l

theorem sortEventsDesc_sorted (l : List LLMUsageEvent) :
    List.Sorted tsDesc (sortEventsDesc l) :=
  List.sorted_insertionSort _ l

theorem findMissingCost_none_of_forall (l : List LLMUsageEvent)
    (h : ∀ e ∈ l, e.estimated_cost ≠ none) : ∀ i, findMissingCost l i = none := by
  induction l with
  | nil => intro i; rfl
  | cons a t ih =>
    intro i
    have ha : ¬(a.estimated_cost = none) := h a (List.mem_cons_self a t)
    simp only [findMissingCost, ha, if_false]
    exact ih (fun e he => h e (List.mem_cons_of_mem a he)) (i + 1)

theorem windowTake_eq_takeWhile (cutoff : ℤ) :
    ∀ (cap : ℕ) (l : List LLMUsageEvent), l.length ≤ cap →
      windowTake cutoff cap l = l.takeWhile (fun e => !decide (e.timestamp < cutoff)) := by
  intro cap l
  induction l generalizing cap with
  | nil => intro _; cases cap <;> rfl
  | cons e rest ih =>
    intro h
    cases cap with
    | zero => simp at h
    | succ c =>
      have hlen : rest.length ≤ c := by
        simp at h
        omega
      simp only [windowTake, List.takeWhile]
      by_cases hts : e.timestamp < cutoff
      · simp [hts]
      · simp [hts, ih c hlen]

theorem takeWhile_eq_filter_of_sorted (cutoff : ℤ) (l : List LLMUsageEvent)
    (hs : List.Sorted tsDesc l) :
    l.takeWhile (fun e => !decide (e.timestamp < cutoff)) =
      l.filter (fun e => !decide (e.timestamp < cutoff)) := by
  induction l with
  | nil => rfl
  | cons e rest ih =>
    obtain ⟨hall, hrest⟩ := List.sorted_cons.mp hs
    by_cases hts : e.timestamp < cutoff
    · have hfail : ∀ x ∈ rest, ¬((fun e => !decide (e.timestamp < cutoff)) x = true) := by
        intro x hx
        have hle : x.timestamp ≤ e.timestamp := hall x hx
        simp only [Bool.not_eq_true', decide_eq_false_iff_not, not_not]
        omega
      rw [List.takeWhile_cons, List.filter_cons]
      simp [hts, List.filter_eq_nil.mpr hfail]
    · rw [List.takeWhile_cons, List.filter_cons]
      simp [hts, ih hrest]

theorem filteredSample_eq_filter (now : ℤ) (l : List LLMUsageEvent)
    (hlen : l.length ≤ 200) :
    filteredSample now l =
      (sortEventsDesc l).filter (fun e => !decide (e.timestamp < now - sevenDays)) := by
  unfold filteredSample
  rw [windowTake_eq_takeWhile _ 200 _ (by rw [(sortEventsDesc_perm l).length_eq]; exact hlen),
    takeWhile_eq_filter_of_sorted _ _ (sortEventsDesc_sorted l)]

theorem filteredSample_perm (now : ℤ) (l₁ l₂ : List LLMUsageEvent) (hp : l₁.Perm l₂)
    (hlen : l₁.length ≤ 200) :
    (filteredSample now l₁).Perm (filteredSample now l₂) := by
  rw [filteredSample_eq_filter now l₁ hlen,
    filteredSample_eq_filter now l₂ (hp.length_eq ▸ hlen)]
  exact ((sortEventsDesc_perm l₁).trans (hp.trans (sortEventsDesc_perm l₂).symm)).filter _

theorem filteredSample_sorted (now : ℤ) (l : List LLMUsageEvent) (hlen : l.length ≤ 200) :
    List.Sorted tsDesc (filteredSample now l) := by
  rw [filteredSample_eq_filter now l hlen]
  exact (sortEventsDesc_sorted l).sublist (List.filter_sublist _)

theorem headD_mem {α : Type} (l : List α) (d : α) (h : l ≠ []) : l.headD d ∈ l := by
  cases l with
  | nil => exact absurd rfl h
  | cons a t => exact List.mem_cons_self a t

theorem getLastD_mem {α : Type} (l : List α) (d : α) (h : l ≠ []) : l.getLastD d ∈ l := by
  induction l generalizing d with
  | nil => exact absurd rfl h
  | cons a t ih =>
    rw [List.getLastD_cons]
    cases t with
    | nil => simp [List.getLastD]
    | cons b t' => exact List.mem_cons_of_mem a (ih a (by simp))

theorem sorted_head_ts_ge (l : List LLMUsageEvent) (hs : List.Sorted tsDesc l) :
    ∀ x ∈ l, x.timestamp ≤ (l.headD defaultEvent).timestamp := by
  cases l with
  | nil => intro x hx; cases hx
  | cons e rest =>
    intro x hx
    rcases List.mem_cons.mp hx with rfl | hx
    · exact le_refl _
    · exact (List.sorted_cons.mp hs).1 x hx

theorem sorted_last_ts_le (l : List LLMUsageEvent) (hs : List.Sorted tsDesc l) :
    ∀ x ∈ l, (l.getLastD defaultEvent).timestamp ≤ x.timestamp := by
  induction l with
  | nil => intro x hx; cases hx
  | cons e rest ih =>
    intro x hx
    obtain ⟨hall, hrest⟩ := List.sorted_cons.mp hs
    rw [List.getLastD_cons]
    cases rest with
    | nil =>
      rcases List.mem_cons.mp hx with rfl | hx
      · exact le_refl _
      · cases hx
    | cons f rest' =>
      have hirrel : (f :: rest').getLastD e = (f :: rest').getLastD defaultEvent := by
        rw [List.getLastD_cons, List.getLastD_cons]
      rw [hirrel]
      rcases List.mem_cons.mp hx with rfl | hx
      · have hm := getLastD_mem (f :: rest') defaultEvent (by simp)
        exact le_trans (hall _ hm) (le_refl _)
      · exact ih hrest x hx

theorem sorted_perm_headD_ts (l₁ l₂ : List LLMUsageEvent) (hp : l₁.Perm l₂)
    (hs₁ : List.Sorted tsDesc l₁) (hs₂ : List.Sorted tsDesc l₂) (hne : l₁ ≠ []) :
    (l₁.headD defaultEvent).timestamp = (l₂.headD defaultEvent).timestamp := by
  have hne₂ : l₂ ≠ [] := by
    intro h
    subst h
    exact hne hp.eq_nil
  have h1 := sorted_head_ts_ge l₁ hs₁ _ (hp.mem_iff.mpr (headD_mem l₂ defaultEvent hne₂))
  have h2 := sorted_head_ts_ge l₂ hs₂ _ (hp.mem_iff.mp (headD_mem l₁ defaultEvent hne))
  omega

theorem sorted_perm_getLastD_ts (l₁ l₂ : List LLMUsageEvent) (hp : l₁.Perm l₂)
    (hs₁ : List.Sorted tsDesc l₁) (hs₂ : List.Sorted tsDesc l₂) (hne : l₁ ≠ []) :
    (l₁.getLastD defaultEvent).timestamp = (l₂.getLastD defaultEvent).timestamp := by
  have hne₂ : l₂ ≠ [] := by
    intro h
    subst h
    exact hne hp.eq_nil
  have h1 := sorted_last_ts_le l₁ hs₁ _ (hp.mem_iff.mpr (getLastD_mem l₂ defaultEvent hne₂))
  have h2 := sorted_last_ts_le l₂ hs₂ _ (hp.mem_iff.mp (getLastD_mem l₁ defaultEvent hne))
  omega

theorem isEmpty_eq_of_perm {α : Type} (l₁ l₂ : List α) (hp : l₁.Perm l₂) :
    l₁.isEmpty = l₂.isEmpty := by
  have h := hp.length_eq
  cases l₁ <;> cases l₂ <;> simp_all

theorem computeExactPercentile_congr (v₁ v₂ : List ℚ) (hp : v₁.Perm v₂) (p : ℤ) :
    computeExactPercentile v₁ p = computeExactPercentile v₂ p := by
  have hs : sortAscQ v₁ = sortAscQ v₂ :=
    List.eq_of_perm_of_sorted ((sortAscQ_perm v₁).trans (hp.trans (sortAscQ_perm v₂).symm))
      (sortAscQ_sorted v₁) (sortAscQ_sorted v₂)
  have he : v₁.isEmpty = v₂.isEmpty := isEmpty_eq_of_perm _ _ hp
  simp only [computeExactPercentile, percentileValue, lowerIndexOf, upperIndexOf]
  rw [hs, he]

theorem baselineFromFiltered_congr (f₁ f₂ : List LLMUsageEvent) (hp : f₁.Perm f₂)
    (hs₁ : List.Sorted tsDesc f₁) (hs₂ : List.Sorted tsDesc f₂) :
    baselineFromFiltered f₁ = baselineFromFiltered f₂ := by
  have hlen := hp.length_eq
  have h50 := computeExactPercentile_congr _ _ (hp.map eventCostQ) 50
  have h90 := computeExactPercentile_congr _ _ (hp.map eventCostQ) 90
  have ht50 := computeExactPercentile_congr _ _ (hp.map (fun e => (e.total_tokens : ℚ))) 50
  have hemp := isEmpty_eq_of_perm _ _ hp
  by_cases hne : f₁.isEmpty = true
  · have hne₂ : f₂.isEmpty = true := hemp ▸ hne
    simp [baselineFromFiltered, hne, hne₂]
  · have hne' : f₁ ≠ [] := by
      intro h
      subst h
      exact hne rfl
    have hne₂ : f₂ ≠ [] := by
      intro h
      subst h
      exact hne' hp.eq_nil
    have hhead := sorted_perm_headD_ts f₁ f₂ hp hs₁ hs₂ hne'
    have hlast := sorted_perm_getLastD_ts f₁ f₂ hp hs₁ hs₂ hne'
    simp only [baselineFromFiltered]
    rw [hemp, h50, h90, ht50, hlen, hhead, hlast]

/-- C9 amended: `compute_baseline` is invariant under permutation of its
input provided the list has at most 200 events (so the sample cap cannot
select different sub-multisets) and every event carries a cost value (so the
index named in the missing-cost error cannot differ); the counterexample
shows the cap makes the claim false beyond 200 events. -/
theorem c9_baseline_permutation_invariant_upto_cap (now : ℤ)
    (l₁ l₂ : List LLMUsageEvent) (hp : l₁.Perm l₂) (hlen : l₁.length ≤ 200)
    (hc : ∀ e ∈ l₁, e.estimated_cost ≠ none) :
    compute_baseline now l₁ = compute_baseline now l₂ := by
  have hc₂ : ∀ e ∈ l₂, e.estimated_cost ≠ none := fun e he => hc e (hp.mem_iff.mpr he)
  unfold compute_baseline
  rw [isEmpty_eq_of_perm l₁ l₂ hp]
  by_cases hne : l₂.isEmpty = true
  · simp [hne]
  · rw [if_neg hne, if_neg hne]
    rw [findMissingCost_none_of_forall _ hc 0, findMissingCost_none_of_forall _ hc₂ 0]
    dsimp only
    exact baselineFromFiltered_congr _ _ (filteredSample_perm now l₁ l₂ hp hlen)
      (filteredSample_sorted now l₁ hlen)
      (filteredSample_sorted now l₂ (hp.length_eq ▸ hlen))

/-- Witness for C9 (amended): swapping a two-event list leaves the baseline
unchanged. -/
theorem c9_witness :
    compute_baseline 0 [c9Event 1, c9Event 2] = compute_baseline 0 [c9Event 2, c9Event 1] :=
  c9_baseline_permutation_invariant_upto_cap 0 _ _
    (List.Perm.swap (c9Event 2) (c9Event 1) []) (by norm_num) (by decide)

end AICostGuard
